import Mathlib

/-!
# Switchdev configuration file: synthesis and persistence

A shallow embedding of `pkg/utils/switchdev.go`.

* The two nested `for` loops of `WriteSwitchdevConfFile` become the structurally
  recursive functions `innerLoop` and `outerLoop`, which thread the slice
  `cfg.Interfaces` as an accumulator and append to it exactly where the source does.
* The file at `switchDevConfPath` is the only piece of mutable state.  It is modelled
  as `Option Bytes` (`none`: the path does not exist) and passed explicitly.
* Every operating-system call (`os.Stat`, `os.Create`, `ioutil.ReadFile`,
  `ioutil.WriteFile`) can fail; which ones do is an input (`Faults`).
* `GetPfsToSkip`, `json.Marshal` and `RunOVSvsctl` are not part of the file; they are
  parameters.  `strings.Contains` is modelled on lists of characters.
-/

namespace Switchdev

/-! ## Data model -/

/-- Contents of a file, a Go `[]byte`. -/
abbrev Bytes := List UInt8

/-- A Go `error` value.  `notExist` stands for the errors recognised by
`os.IsNotExist`; every other error is `other` with its message. -/
inductive GoError where
  | notExist
  | other (msg : String)
  deriving DecidableEq, Repr

/-- Embedding of `os.IsNotExist`. -/
def IsNotExist : GoError → Bool
  | .notExist => true
  | .other _ => false

/-- Modelled from the spec: the element type of `Interface.VfGroups`, declared in
`api/v1` and not used by this file other than being copied ("opaque to this core"). -/
structure VfGroup where
  descriptor : String
  deriving DecidableEq, Repr

/-- Modelled from the spec: the type `sriovnetworkv1.Interface` is declared in `api/v1`.
The fields are the ones the data model lists and the source reads or writes.
`NumVfs` is a Go `int` (it is compared with `> 0`), `EswitchMode` a Go `string`. -/
structure Interface where
  Name : String
  PciAddress : String
  NumVfs : Int
  EswitchMode : String
  VfGroups : List VfGroup
  deriving DecidableEq, Repr

/-- Modelled from the spec: the constant `sriovnetworkv1.ESwithModeSwitchDev`, declared
in `api/v1`; the spec gives its value as `switchdev`. -/
def ESwithModeSwitchDev : String := "switchdev"

/-- The part of `SriovNetworkNodeStateSpec` the file reads. -/
structure SriovNetworkNodeStateSpec where
  Interfaces : List Interface
  deriving DecidableEq, Repr

/-- The part of `SriovNetworkNodeStateStatus` the file reads. -/
structure SriovNetworkNodeStateStatus where
  Interfaces : List Interface
  deriving DecidableEq, Repr

/-- The part of `SriovNetworkNodeState` the file reads. -/
structure SriovNetworkNodeState where
  Spec : SriovNetworkNodeStateSpec
  Status : SriovNetworkNodeStateStatus
  deriving DecidableEq, Repr

/-- The Go struct `config`. -/
structure config where
  Interfaces : List Interface
  deriving DecidableEq, Repr

/-- The result type of `GetPfsToSkip`, a Go `map[string]bool`, as an association list. -/
abbrev SkipMap := List (String × Bool)

/-- Go map indexing `pfsToSkip[key]`: the stored value, or `false` (the zero value of
`bool`) when the key is missing. -/
def SkipMap.index (pfsToSkip : SkipMap) (key : String) : Bool :=
  match pfsToSkip.lookup key with
  | some skip => skip
  | none => false

/-! ## The two predicates over a node state -/

/-- Embedding of `IsSwitchdevModeSpec`: the loop returns `true` at the first interface
whose mode is switchdev and `false` after the last one. -/
def IsSwitchdevModeSpec (spec : SriovNetworkNodeStateSpec) : Bool :=
  let rec loop : List Interface → Bool
    | [] => false
    | iface :: rest => if iface.EswitchMode = ESwithModeSwitchDev then true else loop rest
  loop spec.Interfaces

/-- Embedding of `SwitchdevDeviceExists`: the same loop over `state.Status.Interfaces`. -/
def SwitchdevDeviceExists (state : SriovNetworkNodeState) : Bool :=
  let rec loop : List Interface → Bool
    | [] => false
    | iface :: rest => if iface.EswitchMode = ESwithModeSwitchDev then true else loop rest
  loop state.Status.Interfaces

/-! ## Synthesis loop of `WriteSwitchdevConfFile` (source lines 39-66) -/

/-- The value of the local `i` at the `append` (source lines 52-62): the composite
literal copies four fields and leaves `EswitchMode` at its zero value, the empty string;
the following `if` copies `EswitchMode` when it is switchdev. -/
def minimalRecord (iface : Interface) : Interface :=
  let i : Interface :=
    { Name := iface.Name
      PciAddress := iface.PciAddress
      NumVfs := iface.NumVfs
      EswitchMode := ""
      VfGroups := iface.VfGroups }
  if iface.EswitchMode = ESwithModeSwitchDev then
    { i with EswitchMode := iface.EswitchMode }
  else i

/-- The inner loop `for _, ifaceStatus := range newState.Status.Interfaces` for one
declared `iface`; `acc` is `cfg.Interfaces`. -/
def innerLoop (pfsToSkip : SkipMap) (iface : Interface) :
    List Interface → List Interface → List Interface
  | [], acc => acc
  | ifaceStatus :: rest, acc =>
    if iface.PciAddress ≠ ifaceStatus.PciAddress then
      innerLoop pfsToSkip iface rest acc
    else if !(pfsToSkip.index iface.PciAddress) then
      innerLoop pfsToSkip iface rest acc
    else if iface.NumVfs > 0 then
      innerLoop pfsToSkip iface rest (acc ++ [minimalRecord iface])
    else
      innerLoop pfsToSkip iface rest acc

/-- The outer loop `for _, iface := range newState.Spec.Interfaces`. -/
def outerLoop (pfsToSkip : SkipMap) (statusInterfaces : List Interface) :
    List Interface → List Interface → List Interface
  | [], acc => acc
  | iface :: rest, acc =>
    outerLoop pfsToSkip statusInterfaces rest (innerLoop pfsToSkip iface statusInterfaces acc)

/-- The value of `cfg` after the loops (source lines 39-66). -/
def synthesize (newState : SriovNetworkNodeState) (pfsToSkip : SkipMap) : config :=
  { Interfaces := outerLoop pfsToSkip newState.Status.Interfaces newState.Spec.Interfaces [] }

/-! ## The file system and the persist step (source lines 67-110) -/

/-- A call made on `switchDevConfPath`, in the order the calls are made. -/
inductive FsCall where
  | stat
  | create
  | readFile
  | writeFile (content : Bytes)
  deriving DecidableEq, Repr

/-- Which operating-system calls fail during one run.  `none`: the call behaves
normally.  A failing `os.Stat` here is one whose error is not a not-exist error (a
missing file is reported through the file state).  A failing `ioutil.WriteFile` also
says which bytes it leaves in the file, since the file is opened with truncation before
the write. -/
structure Faults where
  stat : Option String
  create : Option String
  read : Option String
  write : Option (String × Bytes)
  deriving DecidableEq, Repr

/-- No call fails. -/
def noFaults : Faults :=
  { stat := none, create := none, read := none, write := none }

/-- Error result of `os.Stat(switchDevConfPath)`. -/
def osStat (faults : Faults) (file : Option Bytes) : Option GoError :=
  match faults.stat with
  | some msg => some (.other msg)
  | none =>
    match file with
    | none => some .notExist
    | some _ => none

/-- Error result of `os.Create(switchDevConfPath)` and the file afterwards: on success the
file exists and is empty, on failure nothing is created. -/
def osCreate (faults : Faults) (file : Option Bytes) : Option GoError × Option Bytes :=
  match faults.create with
  | some msg => (some (.other msg), file)
  | none => (none, some [])

/-- Result of `ioutil.ReadFile(switchDevConfPath)`. -/
def ioutilReadFile (faults : Faults) (file : Option Bytes) : Except GoError Bytes :=
  match faults.read with
  | some msg => .error (.other msg)
  | none =>
    match file with
    | none => .error .notExist
    | some content => .ok content

/-- Error result of `ioutil.WriteFile(switchDevConfPath, newContent, 0644)` and the file
afterwards. -/
def ioutilWriteFile (faults : Faults) (newContent : Bytes) : Option GoError × Option Bytes :=
  match faults.write with
  | some (msg, residue) => (some (.other msg), some residue)
  | none => (none, some newContent)

/-- What one run returns and leaves behind: the two results `update` and `err`, the file
after the run, and the calls made on the path. -/
structure Outcome where
  update : Bool
  err : Option GoError
  file : Option Bytes
  calls : List FsCall
  deriving DecidableEq, Repr

/-- Source lines 89-96: `newContent` stays `nil` for a config without interfaces and is
`json.Marshal(cfg)` otherwise. -/
def newContent (marshal : config → Except GoError Bytes) (cfg : config) :
    Except GoError Bytes :=
  if cfg.Interfaces.length ≠ 0 then marshal cfg else .ok []

/-- Source lines 84-110, entered with the file as `os.Stat` or `os.Create` left it and
with the calls made so far. -/
def readCompareWrite (marshal : config → Except GoError Bytes) (faults : Faults)
    (cfg : config) (file : Option Bytes) (calls : List FsCall) : Outcome :=
  match ioutilReadFile faults file with
  | .error err =>
    { update := false, err := some err, file := file, calls := calls ++ [.readFile] }
  | .ok oldContent =>
    match newContent marshal cfg with
    | .error err =>
      { update := false, err := some err, file := file, calls := calls ++ [.readFile] }
    | .ok content =>
      if content = oldContent then
        { update := false, err := none, file := file, calls := calls ++ [.readFile] }
      else
        -- update = true
        match ioutilWriteFile faults content with
        | (some err, file1) =>
          { update := true, err := some err, file := file1,
            calls := calls ++ [.readFile, .writeFile content] }
        | (none, file1) =>
          { update := true, err := none, file := file1,
            calls := calls ++ [.readFile, .writeFile content] }

/-- Source lines 67-110: the persist step for a synthesized `cfg`. -/
def persist (marshal : config → Except GoError Bytes) (faults : Faults)
    (cfg : config) (file : Option Bytes) : Outcome :=
  match osStat faults file with
  | some err =>
    if IsNotExist err then
      if cfg.Interfaces.length = 0 then
        { update := false, err := none, file := file, calls := [.stat] }
      else
        match osCreate faults file with
        | (some err1, file1) =>
          { update := false, err := some err1, file := file1, calls := [.stat, .create] }
        | (none, file1) =>
          readCompareWrite marshal faults cfg file1 [.stat, .create]
    else
      { update := false, err := some err, file := file, calls := [.stat] }
  | none => readCompareWrite marshal faults cfg file [.stat]

/-- Embedding of `WriteSwitchdevConfFile`.  `GetPfsToSkip` (same package, another file)
and `json.Marshal` are parameters. -/
def WriteSwitchdevConfFile (GetPfsToSkip : SriovNetworkNodeState → Except GoError SkipMap)
    (marshal : config → Except GoError Bytes) (faults : Faults)
    (newState : SriovNetworkNodeState) (file : Option Bytes) : Outcome :=
  match GetPfsToSkip newState with
  | .error err => { update := false, err := some err, file := file, calls := [] }
  | .ok pfsToSkip => persist marshal faults (synthesize newState pfsToSkip) file

/-! ## The synthesizer in the words of the specification -/

/-- Steps 1 to 3 of the specified algorithm: a declared interface `d` is kept when some
observed interface has its `PciAddress`, the skip map sends its `PciAddress` to `true`,
and `d.NumVfs > 0`. -/
def keptBySpec (newState : SriovNetworkNodeState) (pfsToSkip : SkipMap) (d : Interface) : Bool :=
  newState.Status.Interfaces.any (fun o => decide (o.PciAddress = d.PciAddress))
    && pfsToSkip.index d.PciAddress
    && decide (d.NumVfs > 0)

/-- The specified synthesizer: traverse `Spec.Interfaces` in order, keep the interfaces
that pass `keptBySpec`, replace each by its single minimal record. -/
def specSynthesize (newState : SriovNetworkNodeState) (pfsToSkip : SkipMap) : List Interface :=
  (newState.Spec.Interfaces.filter (keptBySpec newState pfsToSkip)).map minimalRecord

/-! ## Sample inputs -/

/-- A declared physical function asking for four virtual functions in switchdev mode. -/
def declaredPf : Interface :=
  { Name := "ens1f0", PciAddress := "0000:01:00.0", NumVfs := 4,
    EswitchMode := "switchdev", VfGroups := [] }

/-- The same physical function as the host reports it. -/
def observedPf : Interface :=
  { Name := "ens1f0", PciAddress := "0000:01:00.0", NumVfs := 0,
    EswitchMode := "legacy", VfGroups := [] }

/-- One declared interface with its observed counterpart. -/
def sampleState : SriovNetworkNodeState :=
  { Spec := { Interfaces := [declaredPf] }, Status := { Interfaces := [observedPf] } }

/-- The declared interface asks for no virtual functions. -/
def zeroVfsState : SriovNetworkNodeState :=
  { Spec := { Interfaces := [{ declaredPf with NumVfs := 0 }] },
    Status := { Interfaces := [observedPf] } }

/-- The status lists the same `PciAddress` twice. -/
def duplicateStatusState : SriovNetworkNodeState :=
  { Spec := { Interfaces := [declaredPf] }, Status := { Interfaces := [observedPf, observedPf] } }

/-- The skip map of the sample state. -/
def sampleSkip : SkipMap := [("0000:01:00.0", true)]

/-- A classifier that returns `sampleSkip`. -/
def sampleGetPfsToSkip (_ : SriovNetworkNodeState) : Except GoError SkipMap := .ok sampleSkip

/-- A classifier that fails. -/
def failingGetPfsToSkip (_ : SriovNetworkNodeState) : Except GoError SkipMap :=
  .error (.other "cannot list devices")

/-- A stand-in for `json.Marshal` on sample inputs: an opening brace, one byte per
record (its `NumVfs` modulo 256), a closing brace. -/
def sampleMarshal (cfg : config) : Except GoError Bytes :=
  .ok ([123] ++ cfg.Interfaces.map (fun i => (i.NumVfs.toNat % 256).toUInt8) ++ [125])

/-! ## The hardware-offload probe -/

/-- Whether the characters of `substr` are the first characters of `s`. -/
def startsWith : List Char → List Char → Bool
  | _, [] => true
  | [], _ :: _ => false
  | c :: s, d :: substr => decide (c = d) && startsWith s substr

/-- Whether the characters of `substr` occur in `s`, side by side, from some position. -/
def containsChars : List Char → List Char → Bool
  | [], substr => startsWith [] substr
  | c :: s, substr => startsWith (c :: s) substr || containsChars s substr

/-- Go's `strings.Contains(s, substr)`: whether `substr` is within `s`. -/
def stringsContains (s substr : String) : Bool :=
  containsChars s.data substr.data

/-- Embedding of `OvsHWOLisEnabled`.  `RunOVSvsctl` (same package, another file) is a
parameter; it returns a Go pair `(string, error)`.  On an error `currentState` is
overwritten with `false` before the substring test. -/
def OvsHWOLisEnabled (RunOVSvsctl : List String → String × Option GoError) : Bool :=
  match RunOVSvsctl ["get", "Open_vSwitch", ".", "other_config:hw-offload"] with
  | (_, some _) => stringsContains "false" "true"
  | (currentState, none) => stringsContains currentState "true"

/-! ## More sample inputs -/

/-- A skip map that sends the sample address to `false`. -/
def falseSkip : SkipMap := [("0000:01:00.0", false)]

/-- Nothing declared, one observed interface in switchdev mode. -/
def statusOnlySwitchdevState : SriovNetworkNodeState :=
  { Spec := { Interfaces := [] }, Status := { Interfaces := [declaredPf] } }

/-- A switch query that fails, with an output that itself reads `true`. -/
def failingOvsQuery (_ : List String) : String × Option GoError :=
  ("true", some (.other "database connection failed"))

/-- A switch query that succeeds with the output `s`. -/
def answeringOvsQuery (s : String) (_ : List String) : String × Option GoError :=
  (s, none)

/-- A stand-in for a `json.Marshal` that fails. -/
def failingMarshal (_ : config) : Except GoError Bytes :=
  .error (.other "unsupported value")

/-! ## Lemmas on the synthesis loop -/

theorem minimalRecord_PciAddress (d : Interface) :
    (minimalRecord d).PciAddress = d.PciAddress := by
  unfold minimalRecord
  split <;> rfl

theorem minimalRecord_NumVfs (d : Interface) : (minimalRecord d).NumVfs = d.NumVfs := by
  unfold minimalRecord
  split <;> rfl

theorem minimalRecord_EswitchMode (d : Interface) :
    (minimalRecord d).EswitchMode
      = if d.EswitchMode = ESwithModeSwitchDev then ESwithModeSwitchDev else "" := by
  unfold minimalRecord
  split
  · next h => simp [h]
  · rfl

/-- The accumulator is only ever extended at its end. -/
theorem innerLoop_acc (pfsToSkip : SkipMap) (d : Interface) (sts acc : List Interface) :
    innerLoop pfsToSkip d sts acc = acc ++ innerLoop pfsToSkip d sts [] := by
  induction sts generalizing acc with
  | nil => simp [innerLoop]
  | cons s rest ih =>
    simp only [innerLoop]
    split
    · exact ih acc
    · split
      · exact ih acc
      · split
        · rw [ih (acc ++ [minimalRecord d]), ih ([] ++ [minimalRecord d])]
          simp
        · exact ih acc

/-- One run of the inner loop appends one copy of the minimal record per status entry
with the declared `PciAddress`, provided the skip map and `NumVfs` let it through. -/
theorem innerLoop_nil (pfsToSkip : SkipMap) (d : Interface) (sts : List Interface) :
    innerLoop pfsToSkip d sts []
      = if pfsToSkip.index d.PciAddress = true ∧ d.NumVfs > 0 then
          List.replicate (sts.countP (fun o => decide (o.PciAddress = d.PciAddress)))
            (minimalRecord d)
        else [] := by
  induction sts with
  | nil => simp [innerLoop]
  | cons s rest ih =>
    simp only [innerLoop]
    split
    · next hne =>
      have hne2 : ¬ s.PciAddress = d.PciAddress := fun h => hne h.symm
      rw [ih]
      simp [List.countP_cons, hne2]
    · next heq =>
      have heq2 : s.PciAddress = d.PciAddress := by
        by_contra h
        exact heq (fun h2 => h h2.symm)
      split
      · next hskip =>
        rw [ih]
        have : ¬ pfsToSkip.index d.PciAddress = true := by simpa using hskip
        simp [this]
      · next hskip =>
        have hs : pfsToSkip.index d.PciAddress = true := by simpa using hskip
        split
        · next hn =>
          rw [innerLoop_acc, ih]
          simp [hs, hn, List.countP_cons, heq2, List.replicate_succ]
        · next hn =>
          rw [ih]
          simp [hn]

theorem outerLoop_acc (pfsToSkip : SkipMap) (sts ds acc : List Interface) :
    outerLoop pfsToSkip sts ds acc
      = acc ++ ds.flatMap (fun d => innerLoop pfsToSkip d sts []) := by
  induction ds generalizing acc with
  | nil => simp [outerLoop]
  | cons d rest ih =>
    simp only [outerLoop, List.flatMap_cons]
    rw [ih, innerLoop_acc]
    simp

/-- The synthesized list, record by record. -/
theorem synthesize_eq (newState : SriovNetworkNodeState) (pfsToSkip : SkipMap) :
    (synthesize newState pfsToSkip).Interfaces
      = newState.Spec.Interfaces.flatMap (fun d =>
          if pfsToSkip.index d.PciAddress = true ∧ d.NumVfs > 0 then
            List.replicate
              (newState.Status.Interfaces.countP (fun o => decide (o.PciAddress = d.PciAddress)))
              (minimalRecord d)
          else []) := by
  simp only [synthesize, outerLoop_acc, List.nil_append]
  congr 1
  funext d
  exact innerLoop_nil pfsToSkip d newState.Status.Interfaces

/-- Membership in the synthesized list. -/
theorem mem_synthesize (newState : SriovNetworkNodeState) (pfsToSkip : SkipMap) (r : Interface) :
    r ∈ (synthesize newState pfsToSkip).Interfaces ↔
      ∃ d ∈ newState.Spec.Interfaces,
        (∃ o ∈ newState.Status.Interfaces, o.PciAddress = d.PciAddress)
          ∧ pfsToSkip.index d.PciAddress = true ∧ d.NumVfs > 0 ∧ r = minimalRecord d := by
  rw [synthesize_eq, List.mem_flatMap]
  constructor
  · rintro ⟨d, hd, hr⟩
    split at hr
    · next hk =>
      rw [List.mem_replicate] at hr
      refine ⟨d, hd, ?_, hk.1, hk.2, hr.2⟩
      have hc := hr.1
      rw [Ne, List.countP_eq_zero] at hc
      push_neg at hc
      obtain ⟨o, ho, hp⟩ := hc
      exact ⟨o, ho, by simpa using hp⟩
    · simp at hr
  · rintro ⟨d, hd, ⟨o, ho, hp⟩, hs, hn, hr⟩
    refine ⟨d, hd, ?_⟩
    rw [if_pos ⟨hs, hn⟩, List.mem_replicate]
    refine ⟨?_, hr⟩
    rw [Ne, List.countP_eq_zero]
    push_neg
    exact ⟨o, ho, by simpa using hp⟩

/-- With pairwise distinct status addresses, an address is matched at most once. -/
theorem countP_PciAddress_of_nodup (sts : List Interface) (x : String)
    (h : (sts.map (fun o => o.PciAddress)).Nodup) :
    sts.countP (fun o => decide (o.PciAddress = x))
      = if sts.any (fun o => decide (o.PciAddress = x)) = true then 1 else 0 := by
  induction sts with
  | nil => simp
  | cons s rest ih =>
    rw [List.map_cons, List.nodup_cons] at h
    have ih2 := ih h.2
    by_cases hs : s.PciAddress = x
    · have hnot : rest.any (fun o => decide (o.PciAddress = x)) = false := by
        rw [← Bool.not_eq_true, List.any_eq_true]
        rintro ⟨o, ho, hp⟩
        apply h.1
        rw [List.mem_map]
        exact ⟨o, ho, by rw [hs]; simpa using hp⟩
      rw [hnot] at ih2
      simp [List.countP_cons, hs, ih2]
    · simp [List.countP_cons, hs, ih2]

theorem flatMap_ite_singleton (ds : List Interface) (p : Interface → Bool)
    (f : Interface → Interface) :
    ds.flatMap (fun d => if p d = true then [f d] else []) = (ds.filter p).map f := by
  induction ds with
  | nil => rfl
  | cons d rest ih =>
    rw [List.flatMap_cons, ih]
    by_cases hp : p d = true
    · simp [hp]
    · simp [hp]

theorem keptBySpec_iff (newState : SriovNetworkNodeState) (pfsToSkip : SkipMap) (d : Interface) :
    keptBySpec newState pfsToSkip d = true ↔
      (∃ o ∈ newState.Status.Interfaces, o.PciAddress = d.PciAddress)
        ∧ pfsToSkip.index d.PciAddress = true ∧ d.NumVfs > 0 := by
  simp [keptBySpec, and_assoc]

/-- With pairwise distinct status addresses the loops compute the specified list. -/
theorem synthesize_eq_spec_of_nodup (newState : SriovNetworkNodeState) (pfsToSkip : SkipMap)
    (h : (newState.Status.Interfaces.map (fun o => o.PciAddress)).Nodup) :
    (synthesize newState pfsToSkip).Interfaces = specSynthesize newState pfsToSkip := by
  rw [synthesize_eq, specSynthesize, ← flatMap_ite_singleton]
  congr 1
  funext d
  rw [countP_PciAddress_of_nodup _ _ h]
  by_cases hk : keptBySpec newState pfsToSkip d = true
  · rw [if_pos hk]
    have hk2 := (keptBySpec_iff newState pfsToSkip d).1 hk
    have hany : newState.Status.Interfaces.any (fun o => decide (o.PciAddress = d.PciAddress))
        = true := by
      rw [List.any_eq_true]
      obtain ⟨o, ho, hp⟩ := hk2.1
      exact ⟨o, ho, by simpa using hp⟩
    rw [if_pos ⟨hk2.2.1, hk2.2.2⟩, if_pos hany]
    rfl
  · rw [if_neg hk]
    split
    · next hc =>
      split
      · next hany =>
        exfalso
        apply hk
        rw [keptBySpec_iff]
        rw [List.any_eq_true] at hany
        obtain ⟨o, ho, hp⟩ := hany
        exact ⟨⟨o, ho, by simpa using hp⟩, hc.1, hc.2⟩
      · rfl
    · rfl

/-! ## Claims on the synthesis loop -/

/-- C1 (filter correctness): for a declared interface `d`, its minimal record is in the
synthesized config exactly when some status entry has the `PciAddress` of `d`, the skip
map sends that address to `true`, and `d.NumVfs > 0`. -/
theorem filter_correctness (newState : SriovNetworkNodeState) (pfsToSkip : SkipMap)
    (d : Interface) (hd : d ∈ newState.Spec.Interfaces) :
    minimalRecord d ∈ (synthesize newState pfsToSkip).Interfaces ↔
      ((∃ o ∈ newState.Status.Interfaces, o.PciAddress = d.PciAddress)
        ∧ pfsToSkip.index d.PciAddress = true ∧ d.NumVfs > 0) := by
  rw [mem_synthesize]
  constructor
  · rintro ⟨e, _, ⟨o, ho, hp⟩, hs, hn, hr⟩
    have hpci : d.PciAddress = e.PciAddress := by
      rw [← minimalRecord_PciAddress d, hr, minimalRecord_PciAddress]
    have hnum : d.NumVfs = e.NumVfs := by
      rw [← minimalRecord_NumVfs d, hr, minimalRecord_NumVfs]
    exact ⟨⟨o, ho, by rw [hp, hpci]⟩, by rw [hpci]; exact hs, by rw [hnum]; exact hn⟩
  · rintro ⟨hex, hs, hn⟩
    exact ⟨d, hd, hex, hs, hn, rfl⟩

/-- Witness of C1 on the sample state: the declared interface is kept. -/
theorem filter_correctness_witness :
    declaredPf ∈ sampleState.Spec.Interfaces
      ∧ (minimalRecord declaredPf ∈ (synthesize sampleState sampleSkip).Interfaces ↔
          ((∃ o ∈ sampleState.Status.Interfaces, o.PciAddress = declaredPf.PciAddress)
            ∧ sampleSkip.index declaredPf.PciAddress = true ∧ declaredPf.NumVfs > 0)) :=
  ⟨by decide, filter_correctness sampleState sampleSkip declaredPf (by decide)⟩

/-- C2 as stated fails: with the same `PciAddress` twice in the status, one declared
interface yields two records, which is neither the specified list nor within the length
of `Spec.Interfaces`. -/
theorem one_record_per_kept_counterexample :
    (synthesize duplicateStatusState sampleSkip).Interfaces
        = [minimalRecord declaredPf, minimalRecord declaredPf]
      ∧ specSynthesize duplicateStatusState sampleSkip = [minimalRecord declaredPf]
      ∧ (synthesize duplicateStatusState sampleSkip).Interfaces
          ≠ specSynthesize duplicateStatusState sampleSkip
      ∧ ¬ (synthesize duplicateStatusState sampleSkip).Interfaces.length
          ≤ duplicateStatusState.Spec.Interfaces.length := by
  decide

/-- C2 (amended): when the `PciAddress` values of `Status.Interfaces` are pairwise
distinct, the synthesized list is the list obtained by traversing `Spec.Interfaces` in
order, keeping the interfaces with a status entry of the same address, a `true` skip entry
and `NumVfs > 0`, and replacing each by its minimal record; it then has no more records
than `Spec.Interfaces` has entries. -/
theorem one_record_per_kept_in_order (newState : SriovNetworkNodeState) (pfsToSkip : SkipMap)
    (h : (newState.Status.Interfaces.map (fun o => o.PciAddress)).Nodup) :
    (synthesize newState pfsToSkip).Interfaces
        = (newState.Spec.Interfaces.filter (keptBySpec newState pfsToSkip)).map minimalRecord
      ∧ (∀ d, keptBySpec newState pfsToSkip d = true ↔
          ((∃ o ∈ newState.Status.Interfaces, o.PciAddress = d.PciAddress)
            ∧ pfsToSkip.index d.PciAddress = true ∧ d.NumVfs > 0))
      ∧ (synthesize newState pfsToSkip).Interfaces.length
          ≤ newState.Spec.Interfaces.length := by
  have heq := synthesize_eq_spec_of_nodup newState pfsToSkip h
  refine ⟨heq, keptBySpec_iff newState pfsToSkip, ?_⟩
  rw [heq, specSynthesize, List.length_map]
  exact List.length_filter_le _ _

/-- Witness of C2 (amended) on the sample state. -/
theorem one_record_per_kept_in_order_witness :
    (sampleState.Status.Interfaces.map (fun o => o.PciAddress)).Nodup
      ∧ (synthesize sampleState sampleSkip).Interfaces
          = (sampleState.Spec.Interfaces.filter (keptBySpec sampleState sampleSkip)).map
              minimalRecord :=
  ⟨by decide, (one_record_per_kept_in_order sampleState sampleSkip (by decide)).1⟩

/-- C3 (mode projection): a record of the synthesized config is the minimal record of a
declared interface `d`; its `EswitchMode` is `switchdev` when `d` declares `switchdev`
and empty otherwise, so it is never `legacy`. -/
theorem mode_projection (newState : SriovNetworkNodeState) (pfsToSkip : SkipMap)
    (r : Interface) (hr : r ∈ (synthesize newState pfsToSkip).Interfaces) :
    (∃ d ∈ newState.Spec.Interfaces, r = minimalRecord d
        ∧ r.EswitchMode = if d.EswitchMode = "switchdev" then "switchdev" else "")
      ∧ r.EswitchMode ≠ "legacy" := by
  obtain ⟨d, hd, _, _, _, hrd⟩ := (mem_synthesize newState pfsToSkip r).1 hr
  have hm : r.EswitchMode = if d.EswitchMode = "switchdev" then "switchdev" else "" := by
    rw [hrd, minimalRecord_EswitchMode]
    rfl
  refine ⟨⟨d, hd, hrd, hm⟩, ?_⟩
  rw [hm]
  split <;> decide

/-- Witness of C3 on the sample state. -/
theorem mode_projection_witness :
    minimalRecord declaredPf ∈ (synthesize sampleState sampleSkip).Interfaces
      ∧ (minimalRecord declaredPf).EswitchMode ≠ "legacy" :=
  ⟨by decide, (mode_projection sampleState sampleSkip (minimalRecord declaredPf) (by decide)).2⟩

/-- C10 (config invariant): every record of the synthesized config has `NumVfs > 0` and a
`PciAddress` that occurs in `Spec.Interfaces`, occurs in `Status.Interfaces`, and is sent
to `true` by the skip map. -/
theorem config_invariant (newState : SriovNetworkNodeState) (pfsToSkip : SkipMap)
    (r : Interface) (hr : r ∈ (synthesize newState pfsToSkip).Interfaces) :
    r.NumVfs > 0
      ∧ (∃ d ∈ newState.Spec.Interfaces, d.PciAddress = r.PciAddress)
      ∧ (∃ o ∈ newState.Status.Interfaces, o.PciAddress = r.PciAddress)
      ∧ pfsToSkip.index r.PciAddress = true := by
  obtain ⟨d, hd, ⟨o, ho, hp⟩, hs, hn, hrd⟩ := (mem_synthesize newState pfsToSkip r).1 hr
  have hpci : r.PciAddress = d.PciAddress := by rw [hrd, minimalRecord_PciAddress]
  have hnum : r.NumVfs = d.NumVfs := by rw [hrd, minimalRecord_NumVfs]
  exact ⟨by rw [hnum]; exact hn, ⟨d, hd, hpci.symm⟩, ⟨o, ho, by rw [hp, hpci]⟩,
    by rw [hpci]; exact hs⟩

/-- Witness of C10 on the sample state. -/
theorem config_invariant_witness :
    minimalRecord declaredPf ∈ (synthesize sampleState sampleSkip).Interfaces
      ∧ (minimalRecord declaredPf).NumVfs > 0
      ∧ sampleSkip.index (minimalRecord declaredPf).PciAddress = true :=
  ⟨by decide,
    (config_invariant sampleState sampleSkip (minimalRecord declaredPf) (by decide)).1,
    (config_invariant sampleState sampleSkip (minimalRecord declaredPf) (by decide)).2.2.2⟩

/-! ## Lemmas on the persist step -/

theorem synthesize_nil_of_no_skip (newState : SriovNetworkNodeState) (pfsToSkip : SkipMap)
    (h : ∀ d ∈ newState.Spec.Interfaces, pfsToSkip.index d.PciAddress = false) :
    (synthesize newState pfsToSkip).Interfaces = [] := by
  rw [List.eq_nil_iff_forall_not_mem]
  intro r hr
  obtain ⟨d, hd, _, hs, _, _⟩ := (mem_synthesize newState pfsToSkip r).1 hr
  rw [h d hd] at hs
  exact Bool.false_ne_true hs

theorem synthesize_nil_of_no_vfs (newState : SriovNetworkNodeState) (pfsToSkip : SkipMap)
    (h : ∀ d ∈ newState.Spec.Interfaces, d.NumVfs = 0) :
    (synthesize newState pfsToSkip).Interfaces = [] := by
  rw [List.eq_nil_iff_forall_not_mem]
  intro r hr
  obtain ⟨d, hd, _, _, hn, _⟩ := (mem_synthesize newState pfsToSkip r).1 hr
  rw [h d hd] at hn
  exact absurd hn (by decide)

/-- Absent file, empty config, `os.Stat` reporting the absence: only `os.Stat` runs. -/
theorem persist_absent_empty (marshal : config → Except GoError Bytes) (faults : Faults)
    (cfg : config) (hstat : faults.stat = none) (hlen : cfg.Interfaces.length = 0) :
    persist marshal faults cfg none
      = { update := false, err := none, file := none, calls := [.stat] } := by
  simp [persist, osStat, hstat, IsNotExist, hlen]

/-- Existing file holding `newContent`, with `os.Stat` and the read succeeding. -/
theorem persist_present_equal (marshal : config → Except GoError Bytes) (faults : Faults)
    (cfg : config) (oldContent : Bytes) (hstat : faults.stat = none)
    (hread : faults.read = none) (hnew : newContent marshal cfg = .ok oldContent) :
    persist marshal faults cfg (some oldContent)
      = { update := false, err := none, file := some oldContent,
          calls := [.stat, .readFile] } := by
  simp [persist, osStat, hstat, readCompareWrite, ioutilReadFile, hread, hnew]

/-- Existing file differing from `newContent`, no call failing. -/
theorem persist_present_differs (marshal : config → Except GoError Bytes)
    (cfg : config) (oldContent content : Bytes)
    (hnew : newContent marshal cfg = .ok content) (hne : content ≠ oldContent) :
    persist marshal noFaults cfg (some oldContent)
      = { update := true, err := none, file := some content,
          calls := [.stat, .readFile, .writeFile content] } := by
  simp [persist, osStat, noFaults, readCompareWrite, ioutilReadFile, hnew, hne,
    ioutilWriteFile]

/-- Absent file, non-empty config, no call failing: the file is created empty and then
compared as an existing empty file. -/
theorem persist_absent_nonempty (marshal : config → Except GoError Bytes)
    (cfg : config) (content : Bytes) (hlen : cfg.Interfaces ≠ [])
    (hnew : newContent marshal cfg = .ok content) (hne : content ≠ []) :
    persist marshal noFaults cfg none
      = { update := true, err := none, file := some content,
          calls := [.stat, .create, .readFile, .writeFile content] } := by
  simp [persist, osStat, noFaults, IsNotExist, hlen, osCreate, readCompareWrite,
    ioutilReadFile, hnew, hne, ioutilWriteFile]

/-- After a run of the persist step without error, either nothing exists and nothing was to
be written, or the file holds `newContent`. -/
theorem persist_file_of_no_error (marshal : config → Except GoError Bytes) (faults : Faults)
    (cfg : config) (file : Option Bytes)
    (h : (persist marshal faults cfg file).err = none) :
    ((persist marshal faults cfg file).file = none ∧ cfg.Interfaces.length = 0)
      ∨ ∃ content, (persist marshal faults cfg file).file = some content
          ∧ newContent marshal cfg = .ok content := by
  unfold persist at h ⊢
  unfold readCompareWrite osStat osCreate ioutilReadFile ioutilWriteFile at h ⊢
  rcases faults with ⟨fstat, fcreate, fread, fwrite⟩
  rcases fstat with _ | m1 <;> rcases fcreate with _ | m2 <;> rcases fread with _ | m3
    <;> rcases fwrite with _ | ⟨m4, res⟩ <;> rcases file with _ | old
    <;> rcases hn : newContent marshal cfg with e | content
    <;> simp only [hn] at h ⊢
    <;> simp [IsNotExist] at h ⊢
    <;> (split_ifs at h ⊢ <;> simp_all)

/-! ## Claims on the persist step and on the whole function -/

/-- C4 (no file for an empty config): when the synthesized config has no interfaces (in
particular when the skip map sends no declared address to `true`, or when every declared
`NumVfs` is 0) and the file is absent, which `os.Stat` reports, `WriteSwitchdevConfFile`
returns `(false, nil)`, the file is still absent, and `os.Stat` is the only call made: no
create, no write. -/
theorem no_file_for_empty_config
    (GetPfsToSkip : SriovNetworkNodeState → Except GoError SkipMap)
    (marshal : config → Except GoError Bytes) (faults : Faults)
    (newState : SriovNetworkNodeState) (pfsToSkip : SkipMap)
    (hskip : GetPfsToSkip newState = .ok pfsToSkip)
    (hstat : faults.stat = none)
    (hempty : (synthesize newState pfsToSkip).Interfaces.length = 0
      ∨ (∀ d ∈ newState.Spec.Interfaces, pfsToSkip.index d.PciAddress = false)
      ∨ (∀ d ∈ newState.Spec.Interfaces, d.NumVfs = 0)) :
    WriteSwitchdevConfFile GetPfsToSkip marshal faults newState none
      = { update := false, err := none, file := none, calls := [.stat] } := by
  have hlen : (synthesize newState pfsToSkip).Interfaces.length = 0 := by
    rcases hempty with h | h | h
    · exact h
    · rw [synthesize_nil_of_no_skip newState pfsToSkip h]
      rfl
    · rw [synthesize_nil_of_no_vfs newState pfsToSkip h]
      rfl
  simp only [WriteSwitchdevConfFile, hskip]
  exact persist_absent_empty marshal faults _ hstat hlen

/-- Witness of C4: the declared interface asks for zero virtual functions and the file is
absent. -/
theorem no_file_for_empty_config_witness :
    sampleGetPfsToSkip zeroVfsState = .ok sampleSkip
      ∧ noFaults.stat = none
      ∧ (∀ d ∈ zeroVfsState.Spec.Interfaces, d.NumVfs = 0)
      ∧ WriteSwitchdevConfFile sampleGetPfsToSkip sampleMarshal noFaults zeroVfsState none
          = { update := false, err := none, file := none, calls := [.stat] } :=
  ⟨rfl, rfl, by decide,
    no_file_for_empty_config sampleGetPfsToSkip sampleMarshal noFaults zeroVfsState sampleSkip
      rfl rfl (Or.inr (Or.inr (by decide)))⟩

/-- C5 (no write on byte equality): when the existing file holds exactly `newContent` (the
serialization of a config with interfaces, no bytes for a config without), and `os.Stat`
and the read succeed, the persist step returns `(false, nil)`, the file holds the same
bytes afterwards, and the calls made are `os.Stat` and the read: no write. -/
theorem no_write_on_byte_equality (marshal : config → Except GoError Bytes) (faults : Faults)
    (cfg : config) (oldContent : Bytes)
    (hstat : faults.stat = none) (hread : faults.read = none)
    (hnew : (if cfg.Interfaces.length ≠ 0 then marshal cfg else .ok []) = .ok oldContent) :
    persist marshal faults cfg (some oldContent)
      = { update := false, err := none, file := some oldContent,
          calls := [.stat, .readFile] } :=
  persist_present_equal marshal faults cfg oldContent hstat hread hnew

/-- Witness of C5: the file already holds the serialization of the sample config. -/
theorem no_write_on_byte_equality_witness :
    noFaults.stat = none ∧ noFaults.read = none
      ∧ sampleMarshal (synthesize sampleState sampleSkip) = .ok [123, 4, 125]
      ∧ persist sampleMarshal noFaults (synthesize sampleState sampleSkip) (some [123, 4, 125])
          = { update := false, err := none, file := some [123, 4, 125],
              calls := [.stat, .readFile] } :=
  ⟨rfl, rfl, rfl,
    no_write_on_byte_equality sampleMarshal noFaults (synthesize sampleState sampleSkip)
      [123, 4, 125] rfl rfl rfl⟩

/-- C6 (write on difference): when no call fails, serialization succeeds and `newContent`
differs from the baseline (the bytes of the existing file, or no bytes for a file that
was absent and is created because the config has interfaces), the persist step returns
`(true, nil)` and the file holds exactly `newContent` afterwards. -/
theorem write_on_difference (marshal : config → Except GoError Bytes)
    (cfg : config) (file : Option Bytes) (content : Bytes)
    (hnew : newContent marshal cfg = .ok content)
    (hdiff : (∃ oldContent, file = some oldContent ∧ content ≠ oldContent)
      ∨ (file = none ∧ cfg.Interfaces ≠ [] ∧ content ≠ [])) :
    (persist marshal noFaults cfg file).update = true
      ∧ (persist marshal noFaults cfg file).err = none
      ∧ (persist marshal noFaults cfg file).file = some content := by
  rcases hdiff with ⟨oldContent, hfile, hne⟩ | ⟨hfile, hlen, hne⟩
  · rw [hfile, persist_present_differs marshal cfg oldContent content hnew hne]
    exact ⟨rfl, rfl, rfl⟩
  · rw [hfile, persist_absent_nonempty marshal cfg content hlen hnew hne]
    exact ⟨rfl, rfl, rfl⟩

/-- Witness of C6, the scenario of the specification: one declared switchdev interface
with four virtual functions, its status counterpart, a `true` skip entry, file absent.
The config has one record, the file is written, `update` is true. -/
theorem write_on_difference_witness :
    (synthesize sampleState sampleSkip).Interfaces = [declaredPf]
      ∧ newContent sampleMarshal (synthesize sampleState sampleSkip) = .ok [123, 4, 125]
      ∧ ((persist sampleMarshal noFaults (synthesize sampleState sampleSkip) none).update = true
        ∧ (persist sampleMarshal noFaults (synthesize sampleState sampleSkip) none).err = none
        ∧ (persist sampleMarshal noFaults (synthesize sampleState sampleSkip) none).file
            = some [123, 4, 125])
      ∧ WriteSwitchdevConfFile sampleGetPfsToSkip sampleMarshal noFaults sampleState none
          = { update := true, err := none, file := some [123, 4, 125],
              calls := [.stat, .create, .readFile, .writeFile [123, 4, 125]] } :=
  ⟨by decide, rfl,
    write_on_difference sampleMarshal (synthesize sampleState sampleSkip) none [123, 4, 125]
      rfl (Or.inr ⟨rfl, by decide, by decide⟩),
    by decide⟩

/-- C7 (idempotence): if a first call returns without error, a second call with the same
inputs, on the file as the first call left it and with no failing call, returns
`(false, nil)`, leaves the file as the first call left it, and only calls `os.Stat` and
the read. -/
theorem second_call_never_writes
    (GetPfsToSkip : SriovNetworkNodeState → Except GoError SkipMap)
    (marshal : config → Except GoError Bytes) (faults : Faults)
    (newState : SriovNetworkNodeState) (file : Option Bytes)
    (hfirst : (WriteSwitchdevConfFile GetPfsToSkip marshal faults newState file).err = none) :
    (WriteSwitchdevConfFile GetPfsToSkip marshal noFaults newState
        (WriteSwitchdevConfFile GetPfsToSkip marshal faults newState file).file).update = false
      ∧ (WriteSwitchdevConfFile GetPfsToSkip marshal noFaults newState
          (WriteSwitchdevConfFile GetPfsToSkip marshal faults newState file).file).err = none
      ∧ (WriteSwitchdevConfFile GetPfsToSkip marshal noFaults newState
          (WriteSwitchdevConfFile GetPfsToSkip marshal faults newState file).file).file
          = (WriteSwitchdevConfFile GetPfsToSkip marshal faults newState file).file
      ∧ ∀ c ∈ (WriteSwitchdevConfFile GetPfsToSkip marshal noFaults newState
          (WriteSwitchdevConfFile GetPfsToSkip marshal faults newState file).file).calls,
          c = .stat ∨ c = .readFile := by
  unfold WriteSwitchdevConfFile at hfirst ⊢
  rcases hG : GetPfsToSkip newState with e | pfsToSkip
  · simp [hG] at hfirst
  · simp only [hG] at hfirst ⊢
    rcases persist_file_of_no_error marshal faults _ file hfirst with ⟨hf, hlen⟩ | ⟨c, hf, hc⟩
    · rw [hf, persist_absent_empty marshal noFaults _ rfl hlen]
      simp
    · rw [hf, persist_present_equal marshal noFaults _ c rfl rfl hc]
      simp

/-- Witness of C7: the first call creates and writes the file, the second one leaves it. -/
theorem second_call_never_writes_witness :
    (WriteSwitchdevConfFile sampleGetPfsToSkip sampleMarshal noFaults sampleState none).err = none
      ∧ (WriteSwitchdevConfFile sampleGetPfsToSkip sampleMarshal noFaults sampleState none).file
          = some [123, 4, 125]
      ∧ (WriteSwitchdevConfFile sampleGetPfsToSkip sampleMarshal noFaults sampleState
          (WriteSwitchdevConfFile sampleGetPfsToSkip sampleMarshal noFaults sampleState
            none).file).update = false :=
  ⟨by decide, by decide,
    (second_call_never_writes sampleGetPfsToSkip sampleMarshal noFaults sampleState none
      (by decide)).1⟩

/-- C8 (error implies `update = false`), the code at a failing write: the sample config
differs from the existing empty file, `update` is set at line 102 before
`ioutil.WriteFile` is called at line 104, and the failing write returns its error
together with `update = true`, where every other error path returns `update = false`. -/
theorem write_failure_returns_update_true :
    (WriteSwitchdevConfFile sampleGetPfsToSkip sampleMarshal
        { noFaults with write := some ("no space left on device", []) } sampleState
        (some [])).err = some (.other "no space left on device")
      ∧ (WriteSwitchdevConfFile sampleGetPfsToSkip sampleMarshal
          { noFaults with write := some ("no space left on device", []) } sampleState
          (some [])).update = true := by
  decide

/-- The error paths before the write: when the write of the file does not fail, that is
for a failure of the classification, of `os.Stat`, of the create, of the read or of the
serialization, a non-nil error comes with `update = false`. -/
theorem error_implies_no_update
    (GetPfsToSkip : SriovNetworkNodeState → Except GoError SkipMap)
    (marshal : config → Except GoError Bytes) (faults : Faults)
    (newState : SriovNetworkNodeState) (file : Option Bytes)
    (hwrite : faults.write = none)
    (herr : (WriteSwitchdevConfFile GetPfsToSkip marshal faults newState file).err ≠ none) :
    (WriteSwitchdevConfFile GetPfsToSkip marshal faults newState file).update = false := by
  unfold WriteSwitchdevConfFile at herr ⊢
  rcases hG : GetPfsToSkip newState with e | pfsToSkip
  · rfl
  · simp only [hG] at herr ⊢
    generalize synthesize newState pfsToSkip = cfg at herr ⊢
    unfold persist at herr ⊢
    unfold readCompareWrite osStat osCreate ioutilReadFile ioutilWriteFile at herr ⊢
    rcases faults with ⟨fstat, fcreate, fread, fwrite⟩
    simp only at hwrite
    subst hwrite
    rcases fstat with _ | m1 <;> rcases fcreate with _ | m2 <;> rcases fread with _ | m3
      <;> rcases file with _ | old
      <;> rcases hn : newContent marshal cfg with e | content
      <;> simp only [hn] at herr ⊢
      <;> simp [IsNotExist] at herr ⊢
      <;> (split_ifs at herr ⊢ <;> simp_all)

/-- An instance of the error paths before the write: the read fails. -/
theorem error_implies_no_update_witness :
    ({ noFaults with read := some "input/output error" } : Faults).write = none
      ∧ (WriteSwitchdevConfFile sampleGetPfsToSkip sampleMarshal
          { noFaults with read := some "input/output error" } sampleState (some [])).err ≠ none
      ∧ (WriteSwitchdevConfFile sampleGetPfsToSkip sampleMarshal
          { noFaults with read := some "input/output error" } sampleState (some [])).update
          = false :=
  ⟨rfl, by decide,
    error_implies_no_update sampleGetPfsToSkip sampleMarshal
      { noFaults with read := some "input/output error" } sampleState (some []) rfl
      (by decide)⟩

/-- C9 (classification failure aborts): when `GetPfsToSkip` returns the error `e`,
`WriteSwitchdevConfFile` returns `(false, e)`, the file is as before, and no call is made
on the path. -/
theorem classification_failure_aborts
    (GetPfsToSkip : SriovNetworkNodeState → Except GoError SkipMap)
    (marshal : config → Except GoError Bytes) (faults : Faults)
    (newState : SriovNetworkNodeState) (file : Option Bytes) (e : GoError)
    (hfail : GetPfsToSkip newState = .error e) :
    WriteSwitchdevConfFile GetPfsToSkip marshal faults newState file
      = { update := false, err := some e, file := file, calls := [] } := by
  simp only [WriteSwitchdevConfFile, hfail]

/-- Witness of C9: a failing classifier and an existing file. -/
theorem classification_failure_aborts_witness :
    failingGetPfsToSkip sampleState = .error (.other "cannot list devices")
      ∧ WriteSwitchdevConfFile failingGetPfsToSkip sampleMarshal noFaults sampleState
          (some [1, 2, 3])
          = { update := false, err := some (.other "cannot list devices"),
              file := some [1, 2, 3], calls := [] } :=
  ⟨rfl,
    classification_failure_aborts failingGetPfsToSkip sampleMarshal noFaults sampleState
      (some [1, 2, 3]) (.other "cannot list devices") rfl⟩

/-! ## Lemmas on the predicates and on the substring test -/

theorem IsSwitchdevModeSpec_loop_iff (l : List Interface) :
    IsSwitchdevModeSpec.loop l = true ↔ ∃ iface ∈ l, iface.EswitchMode = "switchdev" := by
  induction l with
  | nil => simp [IsSwitchdevModeSpec.loop]
  | cons i rest ih =>
    by_cases h : i.EswitchMode = "switchdev"
    · simp [IsSwitchdevModeSpec.loop, ESwithModeSwitchDev, h]
    · simp [IsSwitchdevModeSpec.loop, ESwithModeSwitchDev, h, ih]

theorem SwitchdevDeviceExists_loop_iff (l : List Interface) :
    SwitchdevDeviceExists.loop l = true ↔ ∃ iface ∈ l, iface.EswitchMode = "switchdev" := by
  induction l with
  | nil => simp [SwitchdevDeviceExists.loop]
  | cons i rest ih =>
    by_cases h : i.EswitchMode = "switchdev"
    · simp [SwitchdevDeviceExists.loop, ESwithModeSwitchDev, h]
    · simp [SwitchdevDeviceExists.loop, ESwithModeSwitchDev, h, ih]

theorem startsWith_iff (s substr : List Char) :
    startsWith s substr = true ↔ ∃ post, s = substr ++ post := by
  induction substr generalizing s with
  | nil => simp [startsWith]
  | cons d rest ih =>
    cases s with
    | nil => simp [startsWith]
    | cons c t =>
      simp only [startsWith, Bool.and_eq_true, decide_eq_true_eq, ih, List.cons_append,
        List.cons.injEq]
      constructor
      · rintro ⟨hc, post, hp⟩
        exact ⟨post, hc, hp⟩
      · rintro ⟨post, hc, hp⟩
        exact ⟨hc, post, hp⟩

theorem containsChars_iff (s substr : List Char) :
    containsChars s substr = true ↔ ∃ pre post, s = pre ++ substr ++ post := by
  induction s with
  | nil =>
    simp only [containsChars, startsWith_iff]
    constructor
    · rintro ⟨post, hp⟩
      exact ⟨[], post, by simpa using hp⟩
    · rintro ⟨pre, post, hp⟩
      have h1 := List.append_eq_nil.1 hp.symm
      have h2 := List.append_eq_nil.1 h1.1
      exact ⟨[], by simp [h2.2]⟩
  | cons c t ih =>
    simp only [containsChars, Bool.or_eq_true, startsWith_iff, ih]
    constructor
    · rintro (⟨post, hp⟩ | ⟨pre, post, hp⟩)
      · exact ⟨[], post, by simpa using hp⟩
      · exact ⟨c :: pre, post, by simp [hp]⟩
    · rintro ⟨pre, post, hp⟩
      cases pre with
      | nil => exact Or.inl ⟨post, by simpa using hp⟩
      | cons p pre =>
        simp only [List.cons_append, List.cons.injEq] at hp
        exact Or.inr ⟨pre, post, hp.2⟩

/-! ## Claims on the skip map, the predicates, the probe and the multiplicity -/

/-- C11 as stated fails: the sample interface is declared and sent to `true` by the skip
map, and the synthesized config holds a record with its `PciAddress`. -/
theorem true_entry_counterexample :
    declaredPf ∈ sampleState.Spec.Interfaces
      ∧ sampleSkip.index declaredPf.PciAddress = true
      ∧ ∃ r ∈ (synthesize sampleState sampleSkip).Interfaces,
          r.PciAddress = declaredPf.PciAddress :=
  ⟨by decide, by decide, declaredPf, by decide, rfl⟩

/-- C11 (amended): a `true` entry of the skip map means include.  For a declared
interface `d`: when its `PciAddress` is not sent to `true`, the synthesized config holds
no record with that address; when it is sent to `true`, has a status counterpart and
`d.NumVfs > 0`, the config holds the minimal record of `d`. -/
theorem true_entry_means_include (newState : SriovNetworkNodeState) (pfsToSkip : SkipMap)
    (d : Interface) (hd : d ∈ newState.Spec.Interfaces) :
    (pfsToSkip.index d.PciAddress = false →
        ∀ r ∈ (synthesize newState pfsToSkip).Interfaces, r.PciAddress ≠ d.PciAddress)
      ∧ (pfsToSkip.index d.PciAddress = true →
          (∃ o ∈ newState.Status.Interfaces, o.PciAddress = d.PciAddress) →
          d.NumVfs > 0 →
          minimalRecord d ∈ (synthesize newState pfsToSkip).Interfaces) := by
  constructor
  · intro hfalse r hr hpci
    obtain ⟨e, _, _, hs, _, hre⟩ := (mem_synthesize newState pfsToSkip r).1 hr
    have he : e.PciAddress = d.PciAddress := by
      rw [← minimalRecord_PciAddress e, ← hre, hpci]
    rw [he, hfalse] at hs
    exact Bool.false_ne_true hs
  · intro hs hex hn
    exact (mem_synthesize newState pfsToSkip (minimalRecord d)).2 ⟨d, hd, hex, hs, hn, rfl⟩

/-- Witness of C11 (amended): with a `false` entry the sample config is empty of the
address, with a `true` entry it holds the record. -/
theorem true_entry_means_include_witness :
    declaredPf ∈ sampleState.Spec.Interfaces
      ∧ falseSkip.index declaredPf.PciAddress = false
      ∧ (∀ r ∈ (synthesize sampleState falseSkip).Interfaces,
          r.PciAddress ≠ declaredPf.PciAddress)
      ∧ minimalRecord declaredPf ∈ (synthesize sampleState sampleSkip).Interfaces :=
  ⟨by decide, by decide,
    (true_entry_means_include sampleState falseSkip declaredPf (by decide)).1 (by decide),
    (true_entry_means_include sampleState sampleSkip declaredPf (by decide)).2 (by decide)
      ⟨observedPf, by decide, by decide⟩ (by decide)⟩

/-- C12: `IsSwitchdevModeSpec` returns `true` exactly when some entry of
`spec.Interfaces` has `EswitchMode` equal to `switchdev`; it returns `false` for the empty
list and for a list whose entries are all `legacy` or unset. -/
theorem IsSwitchdevModeSpec_iff (spec : SriovNetworkNodeStateSpec) :
    (IsSwitchdevModeSpec spec = true ↔
        ∃ iface ∈ spec.Interfaces, iface.EswitchMode = "switchdev")
      ∧ IsSwitchdevModeSpec { Interfaces := [] } = false
      ∧ ((∀ iface ∈ spec.Interfaces, iface.EswitchMode = "legacy" ∨ iface.EswitchMode = "") →
          IsSwitchdevModeSpec spec = false) := by
  have hiff : IsSwitchdevModeSpec spec = true ↔
      ∃ iface ∈ spec.Interfaces, iface.EswitchMode = "switchdev" :=
    IsSwitchdevModeSpec_loop_iff spec.Interfaces
  refine ⟨hiff, rfl, ?_⟩
  intro hall
  rw [← Bool.not_eq_true, hiff]
  rintro ⟨iface, hmem, hmode⟩
  rcases hall iface hmem with h | h
  · rw [hmode] at h
    exact absurd h (by decide)
  · rw [hmode] at h
    exact absurd h (by decide)

/-- Witness of C12: one declared switchdev interface gives `true`, one legacy interface
gives `false`. -/
theorem IsSwitchdevModeSpec_iff_witness :
    IsSwitchdevModeSpec sampleState.Spec = true
      ∧ IsSwitchdevModeSpec { Interfaces := [observedPf] } = false :=
  ⟨(IsSwitchdevModeSpec_iff sampleState.Spec).1.2 ⟨declaredPf, by decide, rfl⟩,
    (IsSwitchdevModeSpec_iff { Interfaces := [observedPf] }).2.2 (by decide)⟩

/-- C13: `SwitchdevDeviceExists` returns `true` exactly when some entry of
`state.Status.Interfaces` has `EswitchMode` equal to `switchdev`; two states with equal
`Status.Interfaces` give the same result whatever their `Spec.Interfaces`. -/
theorem SwitchdevDeviceExists_ignores_intent (state : SriovNetworkNodeState) :
    (SwitchdevDeviceExists state = true ↔
        ∃ iface ∈ state.Status.Interfaces, iface.EswitchMode = "switchdev")
      ∧ ∀ other : SriovNetworkNodeState,
          other.Status.Interfaces = state.Status.Interfaces →
          SwitchdevDeviceExists other = SwitchdevDeviceExists state := by
  refine ⟨SwitchdevDeviceExists_loop_iff state.Status.Interfaces, ?_⟩
  intro other hsame
  simp only [SwitchdevDeviceExists, hsame]

/-- Witness of C13: a spec that is all switchdev over a status that is all legacy gives
`false`; an empty spec over one switchdev status entry gives `true`; replacing the spec
does not change the result. -/
theorem SwitchdevDeviceExists_ignores_intent_witness :
    SwitchdevDeviceExists sampleState = false
      ∧ SwitchdevDeviceExists statusOnlySwitchdevState = true
      ∧ SwitchdevDeviceExists { statusOnlySwitchdevState with Spec := sampleState.Spec }
          = SwitchdevDeviceExists statusOnlySwitchdevState :=
  ⟨by decide, by decide,
    (SwitchdevDeviceExists_ignores_intent statusOnlySwitchdevState).2
      { statusOnlySwitchdevState with Spec := sampleState.Spec } rfl⟩

/-- C14 (fail-safe offload probe): when the switch query returns an error,
`OvsHWOLisEnabled` returns `false`, whatever string comes with the error. -/
theorem OvsHWOLisEnabled_false_on_error
    (RunOVSvsctl : List String → String × Option GoError)
    (hfail : (RunOVSvsctl ["get", "Open_vSwitch", ".", "other_config:hw-offload"]).2 ≠ none) :
    OvsHWOLisEnabled RunOVSvsctl = false := by
  unfold OvsHWOLisEnabled
  rcases hq : RunOVSvsctl ["get", "Open_vSwitch", ".", "other_config:hw-offload"]
    with ⟨out, _ | e⟩
  · rw [hq] at hfail
    exact absurd rfl hfail
  · show stringsContains "false" "true" = false
    decide

/-- Witness of C14: the failing query comes with the output `true`. -/
theorem OvsHWOLisEnabled_false_on_error_witness :
    failingOvsQuery ["get", "Open_vSwitch", ".", "other_config:hw-offload"]
        = ("true", some (.other "database connection failed"))
      ∧ OvsHWOLisEnabled failingOvsQuery = false :=
  ⟨rfl, OvsHWOLisEnabled_false_on_error failingOvsQuery (by decide)⟩

/-- C18 (substring match): when the switch query succeeds with output `s`,
`OvsHWOLisEnabled` returns `true` exactly when `s` reads `pre ++ "true" ++ post` for some
`pre` and `post`. -/
theorem OvsHWOLisEnabled_iff_substring
    (RunOVSvsctl : List String → String × Option GoError) (s : String)
    (hok : RunOVSvsctl ["get", "Open_vSwitch", ".", "other_config:hw-offload"] = (s, none)) :
    OvsHWOLisEnabled RunOVSvsctl = true ↔
      ∃ pre post : List Char, s.data = pre ++ ['t', 'r', 'u', 'e'] ++ post := by
  unfold OvsHWOLisEnabled
  rw [hok]
  exact containsChars_iff s.data ['t', 'r', 'u', 'e']

/-- Witness of C18: outputs that hold `true` give `true`, the others give `false`. -/
theorem OvsHWOLisEnabled_iff_substring_witness :
    OvsHWOLisEnabled (answeringOvsQuery "true\n") = true
      ∧ OvsHWOLisEnabled (answeringOvsQuery "\"true\"") = true
      ∧ OvsHWOLisEnabled (answeringOvsQuery "false") = false
      ∧ OvsHWOLisEnabled (answeringOvsQuery "") = false
      ∧ OvsHWOLisEnabled (answeringOvsQuery "TRUE") = false :=
  ⟨(OvsHWOLisEnabled_iff_substring (answeringOvsQuery "true\n") "true\n" rfl).2
      ⟨[], ['\n'], rfl⟩,
    by decide, by decide, by decide, by decide⟩

/-- C19 (exact multiplicity): the synthesized list is the concatenation, over
`Spec.Interfaces` in order, of `k` copies of the minimal record of `d` when the skip map
sends `d.PciAddress` to `true` and `d.NumVfs > 0`, and of nothing otherwise, `k` being the
number of status entries with the `PciAddress` of `d`; with pairwise distinct status
addresses `k` is 1 for every kept interface. -/
theorem exact_multiplicity (newState : SriovNetworkNodeState) (pfsToSkip : SkipMap) :
    (synthesize newState pfsToSkip).Interfaces
        = newState.Spec.Interfaces.flatMap (fun d =>
            if pfsToSkip.index d.PciAddress = true ∧ d.NumVfs > 0 then
              List.replicate
                (newState.Status.Interfaces.countP
                  (fun o => decide (o.PciAddress = d.PciAddress)))
                (minimalRecord d)
            else [])
      ∧ ((newState.Status.Interfaces.map (fun o => o.PciAddress)).Nodup →
          ∀ d, keptBySpec newState pfsToSkip d = true →
            newState.Status.Interfaces.countP
              (fun o => decide (o.PciAddress = d.PciAddress)) = 1) := by
  refine ⟨synthesize_eq newState pfsToSkip, ?_⟩
  intro hnodup d hkept
  rw [countP_PciAddress_of_nodup _ _ hnodup]
  have hk := (keptBySpec_iff newState pfsToSkip d).1 hkept
  have hany : newState.Status.Interfaces.any (fun o => decide (o.PciAddress = d.PciAddress))
      = true := by
    rw [List.any_eq_true]
    obtain ⟨o, ho, hp⟩ := hk.1
    exact ⟨o, ho, by simpa using hp⟩
  rw [if_pos hany]

/-- Witness of C19: two status entries with the declared address give two records; one
gives one. -/
theorem exact_multiplicity_witness :
    (synthesize duplicateStatusState sampleSkip).Interfaces
        = List.replicate 2 (minimalRecord declaredPf)
      ∧ sampleState.Status.Interfaces.countP
          (fun o => decide (o.PciAddress = declaredPf.PciAddress)) = 1 :=
  ⟨(exact_multiplicity duplicateStatusState sampleSkip).1.trans (by decide),
    (exact_multiplicity sampleState sampleSkip).2 (by decide) declaredPf (by decide)⟩

/-! ## Claims on errors, on the empty config and on the two baselines -/

/-- C15 as stated fails: with the file absent and a config with interfaces, `os.Create`
runs before the read and before the serialization; when either of these fails, the
function returns the error and leaves a zero-byte file where there was none. -/
theorem error_without_state_change_counterexample :
    (WriteSwitchdevConfFile sampleGetPfsToSkip sampleMarshal
        { noFaults with read := some "input/output error" } sampleState none)
        = { update := false, err := some (.other "input/output error"), file := some [],
            calls := [.stat, .create, .readFile] }
      ∧ (WriteSwitchdevConfFile sampleGetPfsToSkip failingMarshal noFaults sampleState none)
        = { update := false, err := some (.other "unsupported value"), file := some [],
            calls := [.stat, .create, .readFile] } := by
  decide

/-- C15 (amended): for a non-nil error not caused by the write.  A file that existed
keeps its exact bytes.  After a failure of the classification, of `os.Stat` or of the
create, the file is as before.  After a failure of the read or of the serialization on a
file that was absent, the file has been created and is left with zero bytes. -/
theorem error_state_change
    (GetPfsToSkip : SriovNetworkNodeState → Except GoError SkipMap)
    (marshal : config → Except GoError Bytes) (faults : Faults)
    (newState : SriovNetworkNodeState) (file : Option Bytes)
    (hwrite : faults.write = none)
    (herr : (WriteSwitchdevConfFile GetPfsToSkip marshal faults newState file).err ≠ none) :
    (∀ oldContent, file = some oldContent →
        (WriteSwitchdevConfFile GetPfsToSkip marshal faults newState file).file
          = some oldContent)
      ∧ (((∃ e, GetPfsToSkip newState = .error e) ∨ faults.stat ≠ none
            ∨ faults.create ≠ none) →
          (WriteSwitchdevConfFile GetPfsToSkip marshal faults newState file).file = file)
      ∧ ((∃ pfsToSkip, GetPfsToSkip newState = .ok pfsToSkip) → faults.stat = none →
          faults.create = none → file = none →
          (WriteSwitchdevConfFile GetPfsToSkip marshal faults newState file).file
            = some []) := by
  unfold WriteSwitchdevConfFile at herr ⊢
  rcases hG : GetPfsToSkip newState with e | pfsToSkip
  · simp
  · simp only [hG] at herr ⊢
    generalize synthesize newState pfsToSkip = cfg at herr ⊢
    unfold persist at herr ⊢
    unfold readCompareWrite osStat osCreate ioutilReadFile ioutilWriteFile at herr ⊢
    rcases faults with ⟨fstat, fcreate, fread, fwrite⟩
    simp only at hwrite
    subst hwrite
    rcases fstat with _ | m1 <;> rcases fcreate with _ | m2 <;> rcases fread with _ | m3
      <;> rcases file with _ | old
      <;> rcases hn : newContent marshal cfg with e | content
      <;> simp only [hn] at herr ⊢
      <;> simp [IsNotExist] at herr ⊢
      <;> (split_ifs at herr ⊢ <;> simp_all)

/-- Witness of C15 (amended): a failing read on an existing file leaves its bytes. -/
theorem error_state_change_witness :
    ({ noFaults with read := some "input/output error" } : Faults).write = none
      ∧ (WriteSwitchdevConfFile sampleGetPfsToSkip sampleMarshal
          { noFaults with read := some "input/output error" } sampleState
          (some [1, 2, 3])).err ≠ none
      ∧ (WriteSwitchdevConfFile sampleGetPfsToSkip sampleMarshal
          { noFaults with read := some "input/output error" } sampleState
          (some [1, 2, 3])).file = some [1, 2, 3] :=
  ⟨rfl, by decide,
    (error_state_change sampleGetPfsToSkip sampleMarshal
      { noFaults with read := some "input/output error" } sampleState (some [1, 2, 3]) rfl
      (by decide)).1 [1, 2, 3] rfl⟩

/-- The two results and the file left by lines 84-110 do not depend on the calls made
before. -/
theorem readCompareWrite_calls (marshal : config → Except GoError Bytes) (faults : Faults)
    (cfg : config) (file : Option Bytes) (calls1 calls2 : List FsCall) :
    (readCompareWrite marshal faults cfg file calls1).update
        = (readCompareWrite marshal faults cfg file calls2).update
      ∧ (readCompareWrite marshal faults cfg file calls1).err
        = (readCompareWrite marshal faults cfg file calls2).err
      ∧ (readCompareWrite marshal faults cfg file calls1).file
        = (readCompareWrite marshal faults cfg file calls2).file := by
  unfold readCompareWrite
  rcases ioutilReadFile faults file with e | oldContent
  · exact ⟨rfl, rfl, rfl⟩
  · rcases newContent marshal cfg with e | content
    · exact ⟨rfl, rfl, rfl⟩
    · by_cases hc : content = oldContent
      · simp [hc]
      · rcases hw : ioutilWriteFile faults content with ⟨_ | e, file1⟩ <;> simp [hc, hw]

/-- Absent file, config with interfaces, no failing call: after `os.Stat` and `os.Create`
the run continues as on an existing empty file. -/
theorem persist_absent_eq_readCompareWrite (marshal : config → Except GoError Bytes)
    (cfg : config) (hne : cfg.Interfaces ≠ []) :
    persist marshal noFaults cfg none
      = readCompareWrite marshal noFaults cfg (some []) [.stat, .create] := by
  simp [persist, osStat, noFaults, IsNotExist, hne, osCreate]

theorem persist_present_eq_readCompareWrite (marshal : config → Except GoError Bytes)
    (cfg : config) (oldContent : Bytes) :
    persist marshal noFaults cfg (some oldContent)
      = readCompareWrite marshal noFaults cfg (some oldContent) [.stat] := by
  simp [persist, osStat, noFaults]

theorem newContent_of_nil (marshal : config → Except GoError Bytes) (cfg : config)
    (h : cfg.Interfaces = []) : newContent marshal cfg = .ok [] := by
  simp [newContent, h]

/-- C16 (empty config is persisted as zero bytes): for an existing file and a synthesized
config without interfaces, when no call fails, the file is afterwards a zero-byte file
(not absent, not the bytes of `{}`, of `null` or of an object with an empty `interfaces`
array), no error is returned, and `update` is true exactly when the file was not empty
before. -/
theorem empty_config_persisted_as_zero_bytes
    (GetPfsToSkip : SriovNetworkNodeState → Except GoError SkipMap)
    (marshal : config → Except GoError Bytes)
    (newState : SriovNetworkNodeState) (pfsToSkip : SkipMap) (oldContent : Bytes)
    (hskip : GetPfsToSkip newState = .ok pfsToSkip)
    (hempty : (synthesize newState pfsToSkip).Interfaces = []) :
    (WriteSwitchdevConfFile GetPfsToSkip marshal noFaults newState (some oldContent)).err = none
      ∧ (WriteSwitchdevConfFile GetPfsToSkip marshal noFaults newState (some oldContent)).file
          = some []
      ∧ (WriteSwitchdevConfFile GetPfsToSkip marshal noFaults newState (some oldContent)).file
          ≠ none
      ∧ (WriteSwitchdevConfFile GetPfsToSkip marshal noFaults newState (some oldContent)).file
          ≠ some [123, 125]
      ∧ (WriteSwitchdevConfFile GetPfsToSkip marshal noFaults newState (some oldContent)).file
          ≠ some [110, 117, 108, 108]
      ∧ (WriteSwitchdevConfFile GetPfsToSkip marshal noFaults newState (some oldContent)).file
          ≠ some [123, 34, 105, 110, 116, 101, 114, 102, 97, 99, 101, 115, 34, 58, 91, 93, 125]
      ∧ ((WriteSwitchdevConfFile GetPfsToSkip marshal noFaults newState
            (some oldContent)).update = true ↔ oldContent ≠ []) := by
  have hnew := newContent_of_nil marshal (synthesize newState pfsToSkip) hempty
  simp only [WriteSwitchdevConfFile, hskip]
  by_cases hold : oldContent = []
  · subst hold
    rw [persist_present_equal marshal noFaults _ [] rfl rfl hnew]
    simp
  · have hne : ([] : Bytes) ≠ oldContent := fun h => hold h.symm
    rw [persist_present_differs marshal _ oldContent [] hnew hne]
    simp [hold]

/-- Witness of C16: a populated file is emptied with `update = true`, an empty file is left
with `update = false`. -/
theorem empty_config_persisted_as_zero_bytes_witness :
    (synthesize zeroVfsState sampleSkip).Interfaces = []
      ∧ (WriteSwitchdevConfFile sampleGetPfsToSkip sampleMarshal noFaults zeroVfsState
          (some [123, 4, 125])).file = some []
      ∧ (WriteSwitchdevConfFile sampleGetPfsToSkip sampleMarshal noFaults zeroVfsState
          (some [123, 4, 125])).update = true
      ∧ (WriteSwitchdevConfFile sampleGetPfsToSkip sampleMarshal noFaults zeroVfsState
          (some [])).update = false :=
  ⟨by decide,
    (empty_config_persisted_as_zero_bytes sampleGetPfsToSkip sampleMarshal zeroVfsState
      sampleSkip [123, 4, 125] rfl (by decide)).2.1,
    by decide, by decide⟩

/-- C17 (absent file and zero-byte file are the same baseline): when no call fails, a run
on an absent file and a run on an existing zero-byte file return the same `update` and
the same `err`; with a config that has interfaces they leave the same file; with an empty
config the absent file stays absent and the zero-byte file stays zero-byte. -/
theorem absent_and_empty_same_baseline
    (GetPfsToSkip : SriovNetworkNodeState → Except GoError SkipMap)
    (marshal : config → Except GoError Bytes)
    (newState : SriovNetworkNodeState) (pfsToSkip : SkipMap)
    (hskip : GetPfsToSkip newState = .ok pfsToSkip) :
    (WriteSwitchdevConfFile GetPfsToSkip marshal noFaults newState none).update
        = (WriteSwitchdevConfFile GetPfsToSkip marshal noFaults newState (some [])).update
      ∧ (WriteSwitchdevConfFile GetPfsToSkip marshal noFaults newState none).err
        = (WriteSwitchdevConfFile GetPfsToSkip marshal noFaults newState (some [])).err
      ∧ ((synthesize newState pfsToSkip).Interfaces ≠ [] →
          (WriteSwitchdevConfFile GetPfsToSkip marshal noFaults newState none).file
            = (WriteSwitchdevConfFile GetPfsToSkip marshal noFaults newState (some [])).file)
      ∧ ((synthesize newState pfsToSkip).Interfaces = [] →
          (WriteSwitchdevConfFile GetPfsToSkip marshal noFaults newState none).file = none
            ∧ (WriteSwitchdevConfFile GetPfsToSkip marshal noFaults newState (some [])).file
              = some []) := by
  simp only [WriteSwitchdevConfFile, hskip]
  by_cases hcfg : (synthesize newState pfsToSkip).Interfaces = []
  · have hlen : (synthesize newState pfsToSkip).Interfaces.length = 0 := by rw [hcfg]; rfl
    have hnew := newContent_of_nil marshal (synthesize newState pfsToSkip) hcfg
    rw [persist_absent_empty marshal noFaults _ rfl hlen,
      persist_present_equal marshal noFaults _ [] rfl rfl hnew]
    simp [hcfg]
  · rw [persist_absent_eq_readCompareWrite marshal _ hcfg,
      persist_present_eq_readCompareWrite marshal _ []]
    obtain ⟨h1, h2, h3⟩ := readCompareWrite_calls marshal noFaults
      (synthesize newState pfsToSkip) (some []) [.stat, .create] [.stat]
    exact ⟨h1, h2, fun _ => h3, fun h => absurd h hcfg⟩

/-- Witness of C17 on the sample state: both runs write the file and return `update = true`;
on the state without virtual functions both return `update = false`. -/
theorem absent_and_empty_same_baseline_witness :
    sampleGetPfsToSkip sampleState = .ok sampleSkip
      ∧ (WriteSwitchdevConfFile sampleGetPfsToSkip sampleMarshal noFaults sampleState none).update
          = (WriteSwitchdevConfFile sampleGetPfsToSkip sampleMarshal noFaults sampleState
              (some [])).update
      ∧ (WriteSwitchdevConfFile sampleGetPfsToSkip sampleMarshal noFaults sampleState
          (some [])).update = true
      ∧ (WriteSwitchdevConfFile sampleGetPfsToSkip sampleMarshal noFaults zeroVfsState none).file
          = none
      ∧ (WriteSwitchdevConfFile sampleGetPfsToSkip sampleMarshal noFaults zeroVfsState
          (some [])).file = some [] :=
  ⟨rfl,
    (absent_and_empty_same_baseline sampleGetPfsToSkip sampleMarshal sampleState sampleSkip
      rfl).1,
    by decide,
    ((absent_and_empty_same_baseline sampleGetPfsToSkip sampleMarshal zeroVfsState sampleSkip
      rfl).2.2.2 (by decide)).1,
    ((absent_and_empty_same_baseline sampleGetPfsToSkip sampleMarshal zeroVfsState sampleSkip
      rfl).2.2.2 (by decide)).2⟩

end Switchdev
